import Mathlib

/-!
Shallow embedding of `extract_cds_from_genbank.py`, a linear pipeline that
loads a GenBank record, filters its CDS features, locates a four-gene operon
by locus tags, computes a 10 kb flanking window, selects the features whose
location start or end falls in that window, and builds one FASTA record per
selected feature from its qualifiers.

Python's fallible operations (dict lookup, list indexing, `min`/`max` of an
empty sequence) are modelled with `Except PyError`; the error constructors
mirror Python's exception classes (`KeyError`, `IndexError`, `ValueError`).
Error propagation (an uncaught exception aborting the rest of the script) is
written out as explicit matches on the `Except` value, which is what the
monadic `do` sugar would produce anyway.
-/

/-- Exceptions the script can raise. `KeyError` and `IndexError` are Python
lookup errors; `ValueError` is what `min()`/`max()` raise on an empty
sequence. -/
inductive PyError where
  | keyError : String → PyError
  | indexError : PyError
  | valueError : PyError
deriving Repr, DecidableEq

/-- True exactly for Python's `LookupError` subclasses (`KeyError`,
`IndexError`); `ValueError` is not a lookup error. -/
def PyError.isLookupError : PyError → Bool
  | .keyError _ => true
  | .indexError => true
  | .valueError => false

/-- A Biopython `SeqFeature`: a type tag (e.g. `"CDS"`), a qualifier
dictionary mapping qualifier keys to lists of strings, and a location with
integer `start` and `end` (Python's half-open convention: the positions
covered are `start, ..., end - 1`). -/
structure Feature where
  ftype : String
  qualifiers : List (String × List String)
  locStart : Int
  locEnd : Int
deriving Repr, DecidableEq

/-- A Biopython `SeqRecord` as far as the script uses it: a name (accession)
and the list of annotated features. -/
structure GenomeRecord where
  name : String
  features : List Feature
deriving Repr, DecidableEq

/-- Dictionary lookup in a qualifier mapping: first binding of the key, if
present (Python dict keys are unique, so first = only). -/
def qualLookup (qs : List (String × List String)) (k : String) : Option (List String) :=
  match qs with
  | [] => none
  | (k2, v) :: rest => if k2 = k then some v else qualLookup rest k

/-- Python `f.qualifiers[k]`: raises `KeyError` when the key is absent. -/
def getQual (f : Feature) (k : String) : Except PyError (List String) :=
  match qualLookup f.qualifiers k with
  | some v => Except.ok v
  | none => Except.error (PyError.keyError k)

/-- Python `xs[0]` on a list of strings: raises `IndexError` on `[]`. -/
def listGetZero (xs : List String) : Except PyError String :=
  match xs with
  | [] => Except.error PyError.indexError
  | x :: _ => Except.ok x

/-- Python `f.qualifiers[k][0]`. -/
def firstQual (f : Feature) (k : String) : Except PyError String :=
  match getQual f k with
  | Except.error e => Except.error e
  | Except.ok v => listGetZero v

/-- Python `min(xs)` on a list of ints: the minimum, or `ValueError` when the
list is empty. -/
def pyMin (xs : List Int) : Except PyError Int :=
  match xs.min? with
  | some v => Except.ok v
  | none => Except.error PyError.valueError

/-- Python `max(xs)` on a list of ints: the maximum, or `ValueError` when the
list is empty. -/
def pyMax (xs : List Int) : Except PyError Int :=
  match xs.max? with
  | some v => Except.ok v
  | none => Except.error PyError.valueError

/-- Iterating a Biopython `FeatureLocation` yields the integer positions
`start, ..., end - 1` (for a minus-strand feature the same positions in
reverse; order is irrelevant to the `min`/`max` the script takes). -/
def locPositions (f : Feature) : List Int :=
  (List.range (f.locEnd - f.locStart).toNat).map (fun (i : Nat) => f.locStart + (i : Int))

/-- Line 43: `genome = [x for x in gb if x.name == "AE016877"][0]` — the
first record named AE016877, `IndexError` when there is none. -/
def pickGenome (gb : List GenomeRecord) : Except PyError GenomeRecord :=
  match gb.filter (fun x => x.name == "AE016877") with
  | [] => Except.error PyError.indexError
  | g :: _ => Except.ok g

/-- Lines 44-46: keep the features that carry a `locus_tag` qualifier and
have type `"CDS"`. -/
def cdsFeatures (genome : GenomeRecord) : List Feature :=
  genome.features.filter
    (fun x => (qualLookup x.qualifiers "locus_tag").isSome && x.ftype == "CDS")

/-- Line 49: locus tags of the four genes of the operon of interest. -/
def operon_tags : List String := ["BC_3514", "BC_3515", "BC_3516", "BC_3517"]

/-- Line 50: `[x for x in features if x.qualifiers["locus_tag"][0] in
operon_tags]`, with the comprehension's left-to-right first-error
semantics. -/
def operonFilter : List Feature → Except PyError (List Feature)
  | [] => Except.ok []
  | x :: rest =>
      match firstQual x "locus_tag" with
      | Except.error e => Except.error e
      | Except.ok t =>
          match operonFilter rest with
          | Except.error e => Except.error e
          | Except.ok r =>
              if operon_tags.contains t then Except.ok (x :: r) else Except.ok r

/-- Line 53's inner comprehension `[min(x.location) for x in operon]`. -/
def minsOf : List Feature → Except PyError (List Int)
  | [] => Except.ok []
  | f :: rest =>
      match pyMin (locPositions f) with
      | Except.error e => Except.error e
      | Except.ok m =>
          match minsOf rest with
          | Except.error e => Except.error e
          | Except.ok ms => Except.ok (m :: ms)

/-- Line 54's inner comprehension `[max(x.location) for x in operon]`. -/
def maxsOf : List Feature → Except PyError (List Int)
  | [] => Except.ok []
  | f :: rest =>
      match pyMax (locPositions f) with
      | Except.error e => Except.error e
      | Except.ok m =>
          match maxsOf rest with
          | Except.error e => Except.error e
          | Except.ok ms => Except.ok (m :: ms)

/-- Line 53: `start_pos = min([min(x.location) for x in operon])`. -/
def start_pos (operon : List Feature) : Except PyError Int :=
  match minsOf operon with
  | Except.error e => Except.error e
  | Except.ok ms => pyMin ms

/-- Line 54: `end_pos = max([max(x.location) for x in operon])`. -/
def end_pos (operon : List Feature) : Except PyError Int :=
  match maxsOf operon with
  | Except.error e => Except.error e
  | Except.ok ms => pyMax ms

/-- A Biopython `FeatureLocation` used as an interval; `fend` stands for the
source's `end` field (a reserved word in Lean). -/
structure FeatureLocation where
  start : Int
  fend : Int
deriving Repr, DecidableEq

/-- Line 56: `operon_range = FeatureLocation(start=start_pos - 10000,
end=end_pos + 10000)`. -/
def operon_range (s e : Int) : FeatureLocation :=
  { start := s - 10000, fend := e + 10000 }

/-- Biopython `value in location`: membership is half-open,
`start <= value < end`. -/
def locContains (r : FeatureLocation) (v : Int) : Bool :=
  decide (r.start ≤ v) && decide (v < r.fend)

/-- Lines 59-62: the `res` loop appending every feature whose location start
or end lies in `operon_range`. -/
def selectRes (features : List Feature) (r : FeatureLocation) : List Feature :=
  features.foldl
    (fun acc f =>
      if locContains r f.locStart || locContains r f.locEnd then acc ++ [f] else acc)
    []

/-- A Biopython `SeqRecord` as constructed on lines 71-78 for the output. -/
structure OutRecord where
  seq : String
  id : String
  name : String
  description : String
deriving Repr, DecidableEq

/-- Lines 67-78: build one output record from a selected feature's
`translation`, `locus_tag`, `protein_id` and `product` qualifiers. -/
def buildRecord (f : Feature) : Except PyError OutRecord :=
  match firstQual f "translation" with
  | Except.error e => Except.error e
  | Except.ok protein_seq =>
      match firstQual f "locus_tag" with
      | Except.error e => Except.error e
      | Except.ok record_id =>
          match firstQual f "protein_id" with
          | Except.error e => Except.error e
          | Except.ok record_name =>
              match firstQual f "product" with
              | Except.error e => Except.error e
              | Except.ok record_description =>
                  Except.ok { seq := protein_seq, id := record_id,
                              name := record_name,
                              description := record_description }

/-- Lines 65-78: the `out_file` loop; stops at the first failing record,
mirroring an uncaught Python exception. -/
def buildOutFile : List Feature → Except PyError (List OutRecord)
  | [] => Except.ok []
  | f :: rest =>
      match buildRecord f with
      | Except.error e => Except.error e
      | Except.ok r =>
          match buildOutFile rest with
          | Except.error e => Except.error e
          | Except.ok rs => Except.ok (r :: rs)

/-- Lines 44-62 composed: from the genome record to the list of features
selected into the flanking window. -/
def selectedOf (genome : GenomeRecord) : Except PyError (List Feature) :=
  match operonFilter (cdsFeatures genome) with
  | Except.error e => Except.error e
  | Except.ok operon =>
      match start_pos operon with
      | Except.error e => Except.error e
      | Except.ok s =>
          match end_pos operon with
          | Except.error e => Except.error e
          | Except.ok e =>
              Except.ok (selectRes (cdsFeatures genome) (operon_range s e))

/-- Lines 44-80 composed: from the genome record to the list of output
records the script writes as FASTA. -/
def pipeline (genome : GenomeRecord) : Except PyError (List OutRecord) :=
  match selectedOf genome with
  | Except.error e => Except.error e
  | Except.ok sel => buildOutFile sel

/-- Observable I/O actions of the loading phase (lines 12-41): the three
Entrez calls of `get_genbank` are remote database queries, parsing the local
GenBank file is not. -/
inductive Effect where
  | esearch : Effect
  | elink : Effect
  | efetch : Effect
  | parseFile : Effect
deriving Repr, DecidableEq

/-- True for the actions that query the remote database. -/
def Effect.isRemoteQuery : Effect → Bool
  | .esearch => true
  | .elink => true
  | .efetch => true
  | .parseFile => false

/-- Lines 12-35: `get_genbank` always issues one esearch, one elink, then
one efetch per download link found. -/
def getGenbankEffects (numLinks : Nat) : List Effect :=
  [Effect.esearch, Effect.elink] ++ List.replicate numLinks Effect.efetch

/-- Lines 38-41: fetch remotely when `AE016877.1.gb` is not a file,
otherwise parse the local file. -/
def loadEffects (gbFileExists : Bool) (numLinks : Nat) : List Effect :=
  if gbFileExists then [Effect.parseFile] else getGenbankEffects numLinks

/-! ### Helper lemmas about the embedded operations -/

instance : Std.Antisymm ((· : Int) ≤ ·) where
  antisymm h1 h2 := Int.le_antisymm h1 h2

/-- Characterisation of `List.min?` on integers. -/
theorem int_min?_eq_some_iff {xs : List Int} {a : Int} :
    xs.min? = some a ↔ a ∈ xs ∧ ∀ b ∈ xs, a ≤ b :=
  List.min?_eq_some_iff (fun a => le_refl a) (fun a b => min_choice a b)
    (fun _ _ _ => le_min_iff)

/-- Characterisation of `List.max?` on integers. -/
theorem int_max?_eq_some_iff {xs : List Int} {a : Int} :
    xs.max? = some a ↔ a ∈ xs ∧ ∀ b ∈ xs, b ≤ a :=
  List.max?_eq_some_iff (fun a => le_refl a) (fun a b => max_choice a b)
    (fun _ _ _ => max_le_iff)

/-- `pyMin` succeeds exactly on the minimum of a non-empty list. -/
theorem pyMin_ok_iff {xs : List Int} {v : Int} :
    pyMin xs = Except.ok v ↔ v ∈ xs ∧ ∀ y ∈ xs, v ≤ y := by
  constructor
  · intro h
    unfold pyMin at h
    rcases hm : xs.min? with _ | m <;> rw [hm] at h
    · exact absurd h (by simp)
    · cases h
      exact int_min?_eq_some_iff.mp hm
  · intro h
    have hm : xs.min? = some v := int_min?_eq_some_iff.mpr h
    unfold pyMin
    rw [hm]

/-- `pyMax` succeeds exactly on the maximum of a non-empty list. -/
theorem pyMax_ok_iff {xs : List Int} {v : Int} :
    pyMax xs = Except.ok v ↔ v ∈ xs ∧ ∀ y ∈ xs, y ≤ v := by
  constructor
  · intro h
    unfold pyMax at h
    rcases hm : xs.max? with _ | m <;> rw [hm] at h
    · exact absurd h (by simp)
    · cases h
      exact int_max?_eq_some_iff.mp hm
  · intro h
    have hm : xs.max? = some v := int_max?_eq_some_iff.mpr h
    unfold pyMax
    rw [hm]

/-- Membership in a feature's position list is the half-open interval
`locStart ≤ y < locEnd`. -/
theorem mem_locPositions {f : Feature} {y : Int} :
    y ∈ locPositions f ↔ f.locStart ≤ y ∧ y < f.locEnd := by
  unfold locPositions
  simp only [List.mem_map, List.mem_range]
  constructor
  · rintro ⟨i, hi, rfl⟩
    omega
  · rintro ⟨h1, h2⟩
    exact ⟨(y - f.locStart).toNat, by omega, by omega⟩

/-- The selection condition of line 61 as a Boolean predicate. -/
def inWindow (r : FeatureLocation) (f : Feature) : Bool :=
  locContains r f.locStart || locContains r f.locEnd

/-- Generalisation of the `res` accumulator loop over its accumulator. -/
theorem selectRes_foldl_acc (r : FeatureLocation) (fs : List Feature) (acc : List Feature) :
    fs.foldl
      (fun acc f => if locContains r f.locStart || locContains r f.locEnd then acc ++ [f] else acc)
      acc = acc ++ fs.filter (inWindow r) := by
  induction fs generalizing acc with
  | nil => simp
  | cons f rest ih =>
      simp only [List.foldl_cons, List.filter_cons, inWindow]
      by_cases h : (locContains r f.locStart || locContains r f.locEnd) = true
      · rw [if_pos h, if_pos h, ih, List.append_assoc]
        rfl
      · rw [if_neg h, if_neg h, ih]

/-- The `res` loop of lines 59-62 computes a `filter` over the features. -/
theorem selectRes_eq_filter (fs : List Feature) (r : FeatureLocation) :
    selectRes fs r = fs.filter (inWindow r) := by
  unfold selectRes
  rw [selectRes_foldl_acc]
  rfl

/-- The membership test of line 50 as a Boolean predicate: the feature's
first `locus_tag` string is one of the four operon tags. -/
def isOperonMember (f : Feature) : Bool :=
  match firstQual f "locus_tag" with
  | Except.ok t => operon_tags.contains t
  | Except.error _ => false

/-- When the comprehension of line 50 succeeds, it computes a `filter` by
the operon-tag membership test. -/
theorem operonFilter_ok_eq_filter {fs ops : List Feature}
    (h : operonFilter fs = Except.ok ops) :
    ops = fs.filter isOperonMember := by
  induction fs generalizing ops with
  | nil =>
      cases h
      rfl
  | cons f rest ih =>
      unfold operonFilter at h
      rcases hq : firstQual f "locus_tag" with e | t <;> rw [hq] at h
      · cases h
      · rcases hr : operonFilter rest with e' | ops' <;> rw [hr] at h
        · cases h
        · replace h :
              (if operon_tags.contains t = true then Except.ok (f :: ops')
               else Except.ok ops') = Except.ok ops := h
          by_cases hc : operon_tags.contains t = true
          · rw [if_pos hc] at h
            cases h
            have hc2 : t ∈ operon_tags := by simpa using hc
            simp [List.filter_cons, isOperonMember, hq, hc2, ih hr]
          · rw [if_neg hc] at h
            cases h
            have hc2 : t ∉ operon_tags := by simpa using hc
            simp [List.filter_cons, isOperonMember, hq, hc2, ih hr]

/-- Features selected by line 50 come from the filtered feature list. -/
theorem operonFilter_ok_subset {fs ops : List Feature}
    (h : operonFilter fs = Except.ok ops) : ∀ f ∈ ops, f ∈ fs := by
  intro f hf
  rw [operonFilter_ok_eq_filter h] at hf
  exact List.mem_of_mem_filter hf

/-- When the comprehension of line 53 succeeds, every operon feature
contributed its own location minimum to the list. -/
theorem minsOf_ok_forall {fs : List Feature} {ms : List Int}
    (h : minsOf fs = Except.ok ms) :
    ∀ f ∈ fs, ∃ m ∈ ms, pyMin (locPositions f) = Except.ok m := by
  induction fs generalizing ms with
  | nil => intro f hf; cases hf
  | cons g rest ih =>
      unfold minsOf at h
      rcases hm : pyMin (locPositions g) with e | m <;> rw [hm] at h
      · cases h
      · rcases hr : minsOf rest with e' | ms' <;> rw [hr] at h
        · cases h
        · cases h
          intro f hf
          rcases List.mem_cons.mp hf with rfl | hf
          · exact ⟨m, List.mem_cons_self m ms', hm⟩
          · obtain ⟨m', hm', hpm⟩ := ih hr f hf
            exact ⟨m', List.mem_cons_of_mem m hm', hpm⟩

/-- Every value produced by the comprehension of line 53 is some operon
feature's location minimum. -/
theorem minsOf_ok_sources {fs : List Feature} {ms : List Int}
    (h : minsOf fs = Except.ok ms) :
    ∀ m ∈ ms, ∃ f ∈ fs, pyMin (locPositions f) = Except.ok m := by
  induction fs generalizing ms with
  | nil =>
      cases h
      intro m hm; cases hm
  | cons g rest ih =>
      unfold minsOf at h
      rcases hm : pyMin (locPositions g) with e | m <;> rw [hm] at h
      · cases h
      · rcases hr : minsOf rest with e' | ms' <;> rw [hr] at h
        · cases h
        · cases h
          intro v hv
          rcases List.mem_cons.mp hv with rfl | hv
          · exact ⟨g, List.mem_cons_self g rest, hm⟩
          · obtain ⟨f, hf, hpm⟩ := ih hr v hv
            exact ⟨f, List.mem_cons_of_mem g hf, hpm⟩

/-- When the comprehension of line 54 succeeds, every operon feature
contributed its own location maximum to the list. -/
theorem maxsOf_ok_forall {fs : List Feature} {ms : List Int}
    (h : maxsOf fs = Except.ok ms) :
    ∀ f ∈ fs, ∃ m ∈ ms, pyMax (locPositions f) = Except.ok m := by
  induction fs generalizing ms with
  | nil => intro f hf; cases hf
  | cons g rest ih =>
      unfold maxsOf at h
      rcases hm : pyMax (locPositions g) with e | m <;> rw [hm] at h
      · cases h
      · rcases hr : maxsOf rest with e' | ms' <;> rw [hr] at h
        · cases h
        · cases h
          intro f hf
          rcases List.mem_cons.mp hf with rfl | hf
          · exact ⟨m, List.mem_cons_self m ms', hm⟩
          · obtain ⟨m', hm', hpm⟩ := ih hr f hf
            exact ⟨m', List.mem_cons_of_mem m hm', hpm⟩

/-- Every value produced by the comprehension of line 54 is some operon
feature's location maximum. -/
theorem maxsOf_ok_sources {fs : List Feature} {ms : List Int}
    (h : maxsOf fs = Except.ok ms) :
    ∀ m ∈ ms, ∃ f ∈ fs, pyMax (locPositions f) = Except.ok m := by
  induction fs generalizing ms with
  | nil =>
      cases h
      intro m hm; cases hm
  | cons g rest ih =>
      unfold maxsOf at h
      rcases hm : pyMax (locPositions g) with e | m <;> rw [hm] at h
      · cases h
      · rcases hr : maxsOf rest with e' | ms' <;> rw [hr] at h
        · cases h
        · cases h
          intro v hv
          rcases List.mem_cons.mp hv with rfl | hv
          · exact ⟨g, List.mem_cons_self g rest, hm⟩
          · obtain ⟨f, hf, hpm⟩ := ih hr v hv
            exact ⟨f, List.mem_cons_of_mem g hf, hpm⟩

/-- A failing qualifier access raises a Python lookup error (`KeyError` for a
missing key, `IndexError` for an empty value list), never anything else. -/
theorem firstQual_error_isLookup {f : Feature} {k : String} {e : PyError}
    (h : firstQual f k = Except.error e) : e.isLookupError = true := by
  unfold firstQual getQual at h
  rcases hq : qualLookup f.qualifiers k with _ | v <;> rw [hq] at h
  · cases h
    rfl
  · unfold listGetZero at h
    rcases v with _ | ⟨x, rest⟩
    · cases h
      rfl
    · cases h

/-- A successful qualifier access means the key is present. -/
theorem firstQual_ok_hasKey {f : Feature} {k : String} {t : String}
    (h : firstQual f k = Except.ok t) : (qualLookup f.qualifiers k).isSome := by
  unfold firstQual getQual at h
  rcases hq : qualLookup f.qualifiers k with _ | v <;> rw [hq] at h
  · cases h
  · rfl

/-- A successfully built output record carries literally the first strings of
the feature's `translation`, `locus_tag`, `protein_id` and `product`
qualifiers as its sequence, id, name and description. -/
theorem buildRecord_ok_quals {f : Feature} {r : OutRecord}
    (h : buildRecord f = Except.ok r) :
    firstQual f "translation" = Except.ok r.seq ∧
    firstQual f "locus_tag" = Except.ok r.id ∧
    firstQual f "protein_id" = Except.ok r.name ∧
    firstQual f "product" = Except.ok r.description := by
  unfold buildRecord at h
  rcases h1 : firstQual f "translation" with e | s1 <;> rw [h1] at h
  · cases h
  rcases h2 : firstQual f "locus_tag" with e | s2 <;> rw [h2] at h
  · cases h
  rcases h3 : firstQual f "protein_id" with e | s3 <;> rw [h3] at h
  · cases h
  rcases h4 : firstQual f "product" with e | s4 <;> rw [h4] at h
  · cases h
  cases h
  exact ⟨by simp, by simp, by simp, by simp⟩

/-- A failing output-record construction raises a Python lookup error. -/
theorem buildRecord_error_isLookup {f : Feature} {e : PyError}
    (h : buildRecord f = Except.error e) : e.isLookupError = true := by
  unfold buildRecord at h
  rcases h1 : firstQual f "translation" with e1 | s1 <;> rw [h1] at h
  · cases h
    exact firstQual_error_isLookup h1
  rcases h2 : firstQual f "locus_tag" with e2 | s2 <;> rw [h2] at h
  · cases h
    exact firstQual_error_isLookup h2
  rcases h3 : firstQual f "protein_id" with e3 | s3 <;> rw [h3] at h
  · cases h
    exact firstQual_error_isLookup h3
  rcases h4 : firstQual f "product" with e4 | s4 <;> rw [h4] at h
  · cases h
    exact firstQual_error_isLookup h4
  cases h

/-- A successful output loop yields one record per selected feature, in
order: the i-th record is built from the i-th feature. -/
theorem buildOutFile_ok_pointwise {sel : List Feature} {recs : List OutRecord}
    (h : buildOutFile sel = Except.ok recs) :
    recs.length = sel.length ∧
    ∀ i (h1 : i < sel.length) (h2 : i < recs.length),
      buildRecord (sel.get ⟨i, h1⟩) = Except.ok (recs.get ⟨i, h2⟩) := by
  induction sel generalizing recs with
  | nil =>
      cases h
      exact ⟨rfl, fun i h1 _ => absurd h1 (by simp)⟩
  | cons f rest ih =>
      unfold buildOutFile at h
      rcases hb : buildRecord f with e | r <;> rw [hb] at h
      · cases h
      rcases hr : buildOutFile rest with e' | rs <;> rw [hr] at h
      · cases h
      cases h
      obtain ⟨hlen, hpt⟩ := ih hr
      refine ⟨by simp [hlen], ?_⟩
      intro i h1 h2
      cases i with
      | zero => simpa using hb
      | succ j =>
          have hj1 : j < rest.length := by simpa using h1
          have hj2 : j < rs.length := by simpa using h2
          simpa using hpt j hj1 hj2

/-- A successful output loop means every selected feature built a record. -/
theorem buildOutFile_ok_forall {sel : List Feature} {recs : List OutRecord}
    (h : buildOutFile sel = Except.ok recs) :
    ∀ f ∈ sel, ∃ r, buildRecord f = Except.ok r := by
  induction sel generalizing recs with
  | nil => intro f hf; cases hf
  | cons g rest ih =>
      unfold buildOutFile at h
      rcases hb : buildRecord g with e | r <;> rw [hb] at h
      · cases h
      rcases hr : buildOutFile rest with e' | rs <;> rw [hr] at h
      · cases h
      intro f hf
      rcases List.mem_cons.mp hf with rfl | hf
      · exact ⟨r, hb⟩
      · exact ih hr f hf

/-- A failing output loop fails with a Python lookup error. -/
theorem buildOutFile_error_isLookup {sel : List Feature} {e : PyError}
    (h : buildOutFile sel = Except.error e) : e.isLookupError = true := by
  induction sel generalizing e with
  | nil => cases h
  | cons g rest ih =>
      unfold buildOutFile at h
      rcases hb : buildRecord g with e1 | r <;> rw [hb] at h
      · cases h
        exact buildRecord_error_isLookup hb
      rcases hr : buildOutFile rest with e2 | rs <;> rw [hr] at h
      · cases h
        exact ih hr
      cases h

/-- When line 53 succeeds, the computed value bounds every operon feature's
start from below, and every operon feature has a non-empty location. -/
theorem start_pos_ok_bounds {ops : List Feature} {s : Int}
    (h : start_pos ops = Except.ok s) :
    ∀ f ∈ ops, s ≤ f.locStart ∧ f.locStart < f.locEnd := by
  unfold start_pos at h
  rcases hms : minsOf ops with e | ms <;> rw [hms] at h
  · cases h
  obtain ⟨hmem, hle⟩ := pyMin_ok_iff.mp h
  intro f hf
  obtain ⟨m, hmms, hpm⟩ := minsOf_ok_forall hms f hf
  obtain ⟨hmpos, hmall⟩ := pyMin_ok_iff.mp hpm
  obtain ⟨hm1, hm2⟩ := mem_locPositions.mp hmpos
  have hstart : f.locStart ∈ locPositions f :=
    mem_locPositions.mpr ⟨le_refl _, lt_of_le_of_lt hm1 hm2⟩
  exact ⟨le_trans (hle m hmms) (hmall _ hstart), lt_of_le_of_lt hm1 hm2⟩

/-- When line 54 succeeds, the computed value bounds every operon feature's
positions from above: in particular `locEnd - 1 ≤ e` and `locStart ≤ e`. -/
theorem end_pos_ok_bounds {ops : List Feature} {e : Int}
    (h : end_pos ops = Except.ok e) :
    ∀ f ∈ ops, f.locEnd - 1 ≤ e ∧ f.locStart ≤ e := by
  unfold end_pos at h
  rcases hms : maxsOf ops with er | ms <;> rw [hms] at h
  · cases h
  obtain ⟨hmem, hge⟩ := pyMax_ok_iff.mp h
  intro f hf
  obtain ⟨m, hmms, hpm⟩ := maxsOf_ok_forall hms f hf
  obtain ⟨hmpos, hmall⟩ := pyMax_ok_iff.mp hpm
  obtain ⟨hm1, hm2⟩ := mem_locPositions.mp hmpos
  have hlast : f.locEnd - 1 ∈ locPositions f :=
    mem_locPositions.mpr ⟨by omega, by omega⟩
  have hstart : f.locStart ∈ locPositions f :=
    mem_locPositions.mpr ⟨le_refl _, lt_of_le_of_lt hm1 hm2⟩
  exact ⟨le_trans (hmall _ hlast) (hge m hmms),
         le_trans (hmall _ hstart) (hge m hmms)⟩

/-- `min` of mins: line 53 computes the minimum coordinate over all positions
covered by the operon features. -/
theorem start_pos_ok_flatMap {ops : List Feature} {s : Int}
    (h : start_pos ops = Except.ok s) :
    pyMin (ops.flatMap locPositions) = Except.ok s := by
  unfold start_pos at h
  rcases hms : minsOf ops with e | ms <;> rw [hms] at h
  · cases h
  obtain ⟨hmem, hle⟩ := pyMin_ok_iff.mp h
  apply pyMin_ok_iff.mpr
  constructor
  · obtain ⟨f, hf, hpm⟩ := minsOf_ok_sources hms s hmem
    exact List.mem_flatMap.mpr ⟨f, hf, (pyMin_ok_iff.mp hpm).1⟩
  · intro y hy
    obtain ⟨f, hf, hyf⟩ := List.mem_flatMap.mp hy
    obtain ⟨m, hmms, hpm⟩ := minsOf_ok_forall hms f hf
    exact le_trans (hle m hmms) ((pyMin_ok_iff.mp hpm).2 y hyf)

/-- `max` of maxes: line 54 computes the maximum coordinate over all positions
covered by the operon features. -/
theorem end_pos_ok_flatMap {ops : List Feature} {e : Int}
    (h : end_pos ops = Except.ok e) :
    pyMax (ops.flatMap locPositions) = Except.ok e := by
  unfold end_pos at h
  rcases hms : maxsOf ops with er | ms <;> rw [hms] at h
  · cases h
  obtain ⟨hmem, hge⟩ := pyMax_ok_iff.mp h
  apply pyMax_ok_iff.mpr
  constructor
  · obtain ⟨f, hf, hpm⟩ := maxsOf_ok_sources hms e hmem
    exact List.mem_flatMap.mpr ⟨f, hf, (pyMax_ok_iff.mp hpm).1⟩
  · intro y hy
    obtain ⟨f, hf, hyf⟩ := List.mem_flatMap.mp hy
    obtain ⟨m, hmms, hpm⟩ := maxsOf_ok_forall hms f hf
    exact le_trans ((pyMax_ok_iff.mp hpm).2 y hyf) (hge m hmms)

/-- When the operon lookup and both window bounds succeed, `selectedOf`
filters the CDS features by the half-open window condition. -/
theorem selectedOf_ok_char {g : GenomeRecord} {ops : List Feature} {s e : Int}
    (hop : operonFilter (cdsFeatures g) = Except.ok ops)
    (hs : start_pos ops = Except.ok s)
    (he : end_pos ops = Except.ok e) :
    selectedOf g = Except.ok ((cdsFeatures g).filter (inWindow (operon_range s e))) := by
  simp only [selectedOf, hop, hs, he, selectRes_eq_filter]

/-- A successful output loop is a pointwise, order-preserving map: the lists
are related element by element by `buildRecord`. -/
theorem buildOutFile_ok_forall2 {sel : List Feature} {recs : List OutRecord}
    (h : buildOutFile sel = Except.ok recs) :
    List.Forall₂ (fun f r => buildRecord f = Except.ok r) sel recs := by
  induction sel generalizing recs with
  | nil =>
      cases h
      exact List.Forall₂.nil
  | cons f rest ih =>
      unfold buildOutFile at h
      rcases hb : buildRecord f with e | r <;> rw [hb] at h
      · cases h
      rcases hr : buildOutFile rest with e' | rs <;> rw [hr] at h
      · cases h
      cases h
      exact List.Forall₂.cons hb (ih hr)

/-- A successful `selectedOf` yields a sublist of the genome's feature list:
selection never reorders or duplicates features. -/
theorem selectedOf_ok_sublist {g : GenomeRecord} {sel : List Feature}
    (h : selectedOf g = Except.ok sel) : List.Sublist sel g.features := by
  unfold selectedOf at h
  split at h
  · cases h
  · split at h
    · cases h
    · split at h
      · cases h
      · cases h
        rw [selectRes_eq_filter]
        exact List.Sublist.trans (List.filter_sublist _) (List.filter_sublist _)

/-! ### Concrete fixtures used for witnesses and counterexamples -/

/-- A concrete operon gene: locus tag BC_3514, covering positions 100-101. -/
def opFeat : Feature :=
  { ftype := "CDS",
    qualifiers := [("locus_tag", ["BC_3514"]), ("translation", ["MKV"]),
                   ("protein_id", ["AAP10448.1"]), ("product", ["alpha protein"])],
    locStart := 100, locEnd := 102 }

/-- The output record `buildRecord` produces for `opFeat`. -/
def opRec : OutRecord :=
  { seq := "MKV", id := "BC_3514", name := "AAP10448.1",
    description := "alpha protein" }

/-- A filtered CDS feature whose start is exactly `end_pos + 10000`: the first
coordinate past the half-open window, yet inside the closed interval. -/
def boundaryFeat : Feature :=
  { ftype := "CDS",
    qualifiers := [("locus_tag", ["BC_9999"]), ("translation", ["MAA"]),
                   ("protein_id", ["AAP19999.1"]), ("product", ["beta protein"])],
    locStart := 10101, locEnd := 10150 }

/-- Genome with the operon gene and the boundary feature. -/
def winGenome : GenomeRecord :=
  { name := "AE016877", features := [opFeat, boundaryFeat] }

/-- A CDS feature inside the window that carries no `locus_tag` qualifier. -/
def fNoTag : Feature :=
  { ftype := "CDS",
    qualifiers := [("translation", ["MQQ"]), ("protein_id", ["AAP10449.1"]),
                   ("product", ["gamma protein"])],
    locStart := 300, locEnd := 350 }

/-- Genome with the operon gene and an untagged CDS inside the window. -/
def gC4 : GenomeRecord :=
  { name := "AE016877", features := [opFeat, fNoTag] }

/-- A CDS feature whose locus tag is not one of the four operon tags. -/
def plainFeat : Feature :=
  { ftype := "CDS",
    qualifiers := [("locus_tag", ["BC_0001"]), ("translation", ["MTT"]),
                   ("protein_id", ["AAP10001.1"]), ("product", ["delta protein"])],
    locStart := 5, locEnd := 8 }

/-- Genome in which none of the four operon locus tags occurs. -/
def gC6 : GenomeRecord :=
  { name := "AE016877", features := [plainFeat] }

/-- An operon gene lacking the `product` qualifier. -/
def opNoProd : Feature :=
  { ftype := "CDS",
    qualifiers := [("locus_tag", ["BC_3514"]), ("translation", ["MKV"]),
                   ("protein_id", ["AAP10448.1"])],
    locStart := 100, locEnd := 102 }

/-- Genome whose selected feature lacks a `product` qualifier. -/
def gC7 : GenomeRecord :=
  { name := "AE016877", features := [opNoProd] }

/-! ### Claim theorems -/

/-- C1 (amended): for a successful run, the set of features selected for the
output FASTA is exactly the set of filtered features whose location start or
location end lies within the HALF-OPEN interval
`[start_pos - 10000, end_pos + 10000)`, where `start_pos`/`end_pos` are the
minimum/maximum genomic positions covered by the operon features. The
original claim's closed upper bound is refuted by
`c1_closed_interval_counterexample`. -/
theorem c1_selected_iff_halfopen_window (g : GenomeRecord)
    (ops sel : List Feature) (s e : Int) (f : Feature)
    (hop : operonFilter (cdsFeatures g) = Except.ok ops)
    (hs : start_pos ops = Except.ok s)
    (he : end_pos ops = Except.ok e)
    (hsel : selectedOf g = Except.ok sel) :
    f ∈ sel ↔ f ∈ cdsFeatures g ∧
      ((s - 10000 ≤ f.locStart ∧ f.locStart < e + 10000) ∨
       (s - 10000 ≤ f.locEnd ∧ f.locEnd < e + 10000)) := by
  rw [selectedOf_ok_char hop hs he] at hsel
  cases hsel
  rw [List.mem_filter]
  simp [inWindow, locContains, operon_range]

/-- C1 counterexample: in `winGenome` the operon covers positions 100-101, so
`start_pos = 100`, `end_pos = 101` and the operon's location `end` is 102.
The feature `boundaryFeat` starts at 10101, inside the closed interval
`[operon_start - 10000, operon_end + 10000]` under either reading of
`operon_end` (101 or 102), yet it is not selected and not written: Biopython
location membership is half-open. -/
theorem c1_closed_interval_counterexample :
    operonFilter (cdsFeatures winGenome) = Except.ok [opFeat] ∧
    start_pos [opFeat] = Except.ok 100 ∧
    end_pos [opFeat] = Except.ok 101 ∧
    opFeat.locEnd = 102 ∧
    boundaryFeat ∈ cdsFeatures winGenome ∧
    (100 - 10000 ≤ boundaryFeat.locStart ∧ boundaryFeat.locStart ≤ 101 + 10000) ∧
    boundaryFeat.locStart ≤ 102 + 10000 ∧
    selectedOf winGenome = Except.ok [opFeat] ∧
    pipeline winGenome = Except.ok [opRec] ∧
    boundaryFeat ∉ ([opFeat] : List Feature) :=
  ⟨rfl, rfl, rfl, rfl, by decide, by decide, by decide, rfl, rfl, by decide⟩

/-- C1 witness: the amended theorem applied to the concrete genome
`winGenome`, whose window bounds are 100 and 101. -/
theorem c1_selected_iff_halfopen_window_witness :
    opFeat ∈ ([opFeat] : List Feature) ↔ opFeat ∈ cdsFeatures winGenome ∧
      ((100 - 10000 ≤ opFeat.locStart ∧ opFeat.locStart < 101 + 10000) ∨
       (100 - 10000 ≤ opFeat.locEnd ∧ opFeat.locEnd < 101 + 10000)) :=
  c1_selected_iff_halfopen_window winGenome [opFeat] [opFeat] 100 101 opFeat
    rfl rfl rfl rfl

/-- C2: the operon is exactly the set of filtered CDS features whose first
`locus_tag` string is one of the four operon tags, and the window spans from
the minimum coordinate covered by those features minus 10000 to the maximum
coordinate plus 10000. -/
theorem c2_operon_location_and_window (g : GenomeRecord) (ops : List Feature)
    (s e : Int) (f : Feature)
    (hop : operonFilter (cdsFeatures g) = Except.ok ops)
    (hs : start_pos ops = Except.ok s)
    (he : end_pos ops = Except.ok e) :
    (f ∈ ops ↔ f ∈ cdsFeatures g ∧
        ∃ t, firstQual f "locus_tag" = Except.ok t ∧ t ∈ operon_tags) ∧
    pyMin (ops.flatMap locPositions) = Except.ok s ∧
    pyMax (ops.flatMap locPositions) = Except.ok e ∧
    (operon_range s e).start = s - 10000 ∧
    (operon_range s e).fend = e + 10000 := by
  refine ⟨?_, start_pos_ok_flatMap hs, end_pos_ok_flatMap he, rfl, rfl⟩
  rw [operonFilter_ok_eq_filter hop, List.mem_filter]
  constructor
  · rintro ⟨hcds, hmem⟩
    refine ⟨hcds, ?_⟩
    unfold isOperonMember at hmem
    rcases hq : firstQual f "locus_tag" with e1 | t <;> rw [hq] at hmem
    · cases hmem
    · exact ⟨t, rfl, by simpa using hmem⟩
  · rintro ⟨hcds, t, hq, ht⟩
    refine ⟨hcds, ?_⟩
    unfold isOperonMember
    rw [hq]
    simpa using ht

/-- C2 witness: the theorem applied to the concrete genome `winGenome`,
where the operon is `[opFeat]` and the window bounds are 100 and 101. -/
theorem c2_operon_location_and_window_witness :
    (opFeat ∈ ([opFeat] : List Feature) ↔ opFeat ∈ cdsFeatures winGenome ∧
        ∃ t, firstQual opFeat "locus_tag" = Except.ok t ∧ t ∈ operon_tags) ∧
    pyMin (([opFeat] : List Feature).flatMap locPositions) = Except.ok 100 ∧
    pyMax (([opFeat] : List Feature).flatMap locPositions) = Except.ok 101 ∧
    (operon_range 100 101).start = 100 - 10000 ∧
    (operon_range 100 101).fend = 101 + 10000 :=
  c2_operon_location_and_window winGenome [opFeat] 100 101 opFeat rfl rfl rfl

/-- C3: for every feature selected into the flanking window, the sequence of
the FASTA record produced for it is exactly the first string of that
feature's `translation` qualifier (pointwise along the two lists). -/
theorem c3_seq_is_translation (g : GenomeRecord) (sel : List Feature)
    (recs : List OutRecord)
    (_hsel : selectedOf g = Except.ok sel)
    (hout : buildOutFile sel = Except.ok recs) :
    List.Forall₂ (fun f r => firstQual f "translation" = Except.ok r.seq)
      sel recs :=
  (buildOutFile_ok_forall2 hout).imp (fun _ _ hb => (buildRecord_ok_quals hb).1)

/-- C3 witness: in `winGenome` the single selected feature `opFeat` yields
the record `opRec`, whose sequence is the first `translation` string. -/
theorem c3_seq_is_translation_witness :
    List.Forall₂ (fun f r => firstQual f "translation" = Except.ok r.seq)
      [opFeat] [opRec] :=
  c3_seq_is_translation winGenome [opFeat] [opRec] rfl rfl

/-- C4 (amended): every CDS feature CARRYING A LOCUS_TAG QUALIFIER whose
location start or end falls within the computed flanking window appears in
the selection. The original claim, quantified over all CDS features, is
refuted by `c4_untagged_cds_counterexample`: a CDS feature without a
`locus_tag` qualifier is discarded before window selection. -/
theorem c4_window_completeness (g : GenomeRecord) (ops sel : List Feature)
    (s e : Int) (f : Feature)
    (hop : operonFilter (cdsFeatures g) = Except.ok ops)
    (hs : start_pos ops = Except.ok s)
    (he : end_pos ops = Except.ok e)
    (hsel : selectedOf g = Except.ok sel)
    (hf : f ∈ g.features)
    (hcds : f.ftype = "CDS")
    (htag : (qualLookup f.qualifiers "locus_tag").isSome = true)
    (hwin : inWindow (operon_range s e) f = true) :
    f ∈ sel := by
  rw [selectedOf_ok_char hop hs he] at hsel
  cases hsel
  refine List.mem_filter.mpr ⟨?_, hwin⟩
  exact List.mem_filter.mpr ⟨hf, by simp [htag, hcds]⟩

/-- C4 counterexample: in `gC4` the CDS feature `fNoTag` lies inside the
computed window (bounds 100 and 101) but carries no `locus_tag` qualifier,
so it is dropped by the line 44-46 filter and omitted from the extracted
output. -/
theorem c4_untagged_cds_counterexample :
    fNoTag ∈ gC4.features ∧
    fNoTag.ftype = "CDS" ∧
    operonFilter (cdsFeatures gC4) = Except.ok [opFeat] ∧
    start_pos [opFeat] = Except.ok 100 ∧
    end_pos [opFeat] = Except.ok 101 ∧
    inWindow (operon_range 100 101) fNoTag = true ∧
    selectedOf gC4 = Except.ok [opFeat] ∧
    pipeline gC4 = Except.ok [opRec] ∧
    fNoTag ∉ ([opFeat] : List Feature) :=
  ⟨by decide, rfl, rfl, rfl, rfl, rfl, rfl, rfl, by decide⟩

/-- C4 witness: the amended theorem applied to `winGenome` and the operon
feature `opFeat`, which carries a `locus_tag` and lies in the window. -/
theorem c4_window_completeness_witness : opFeat ∈ ([opFeat] : List Feature) :=
  c4_window_completeness winGenome [opFeat] [opFeat] 100 101 opFeat
    rfl rfl rfl rfl (by decide) rfl rfl rfl

/-- C5: a successful output pass yields exactly one entry per selected
feature, and pointwise the entry's id is the feature's first `locus_tag`,
its name the first `protein_id`, and its description the first `product`. -/
theorem c5_output_entry_fields (g : GenomeRecord) (sel : List Feature)
    (recs : List OutRecord)
    (_hsel : selectedOf g = Except.ok sel)
    (hout : buildOutFile sel = Except.ok recs) :
    recs.length = sel.length ∧
    List.Forall₂
      (fun f r =>
        firstQual f "locus_tag" = Except.ok r.id ∧
        firstQual f "protein_id" = Except.ok r.name ∧
        firstQual f "product" = Except.ok r.description)
      sel recs := by
  have h2 := buildOutFile_ok_forall2 hout
  refine ⟨h2.length_eq.symm, ?_⟩
  exact h2.imp (fun _ _ hb => ⟨(buildRecord_ok_quals hb).2.1,
    (buildRecord_ok_quals hb).2.2.1, (buildRecord_ok_quals hb).2.2.2⟩)

/-- C5 witness: in `winGenome` the single entry `opRec` takes its id, name
and description from `opFeat`'s qualifiers. -/
theorem c5_output_entry_fields_witness :
    ([opRec] : List OutRecord).length = ([opFeat] : List Feature).length ∧
    List.Forall₂
      (fun f r =>
        firstQual f "locus_tag" = Except.ok r.id ∧
        firstQual f "protein_id" = Except.ok r.name ∧
        firstQual f "product" = Except.ok r.description)
      [opFeat] [opRec] :=
  c5_output_entry_fields winGenome [opFeat] [opRec] rfl rfl

/-- C6 (amended): when none of the four operon locus tags is present (the
operon list is empty), the script fails with an unhandled `ValueError` from
`min()` of an empty sequence while computing the window — not with a
lookup/index error as the original claim states (refuted by
`c6_lookup_error_counterexample`); the absence of the operon is never
checked before that point. -/
theorem c6_empty_operon_valueerror (g : GenomeRecord)
    (hop : operonFilter (cdsFeatures g) = Except.ok []) :
    pipeline g = Except.error PyError.valueError ∧
    PyError.valueError.isLookupError = false := by
  refine ⟨?_, rfl⟩
  have hsp : start_pos ([] : List Feature) = Except.error PyError.valueError := rfl
  simp only [pipeline, selectedOf, hop, hsp]

/-- C6 counterexample: in `gC6` no operon tag occurs, and the run aborts with
`ValueError` — which is not a Python lookup/index error (`LookupError`
covers only `KeyError` and `IndexError`). -/
theorem c6_lookup_error_counterexample :
    operonFilter (cdsFeatures gC6) = Except.ok [] ∧
    pipeline gC6 = Except.error PyError.valueError ∧
    PyError.valueError.isLookupError = false ∧
    PyError.valueError ≠ PyError.indexError :=
  ⟨rfl, rfl, rfl, by decide⟩

/-- C6 witness: the amended theorem applied to the concrete genome `gC6`. -/
theorem c6_empty_operon_valueerror_witness :
    pipeline gC6 = Except.error PyError.valueError ∧
    PyError.valueError.isLookupError = false :=
  c6_empty_operon_valueerror gC6 rfl

/-- C7: if any selected feature lacks a `translation`, `protein_id` or
`product` qualifier, the output-formatting loop aborts the run with an
unhandled Python lookup error, and no output records are produced. -/
theorem c7_missing_qualifier_lookup_error (g : GenomeRecord)
    (sel : List Feature) (f : Feature)
    (hsel : selectedOf g = Except.ok sel) (hf : f ∈ sel)
    (hmiss : qualLookup f.qualifiers "translation" = none ∨
             qualLookup f.qualifiers "protein_id" = none ∨
             qualLookup f.qualifiers "product" = none) :
    ∃ e, pipeline g = Except.error e ∧ e.isLookupError = true := by
  have hne : ∀ r, ¬ buildRecord f = Except.ok r := by
    intro r hr
    obtain ⟨h1, h2, h3, h4⟩ := buildRecord_ok_quals hr
    rcases hmiss with hm | hm | hm
    · have hk := firstQual_ok_hasKey h1
      rw [hm] at hk
      simp at hk
    · have hk := firstQual_ok_hasKey h3
      rw [hm] at hk
      simp at hk
    · have hk := firstQual_ok_hasKey h4
      rw [hm] at hk
      simp at hk
  rcases hout : buildOutFile sel with e | recs
  · refine ⟨e, ?_, buildOutFile_error_isLookup hout⟩
    unfold pipeline
    rw [hsel]
    exact hout
  · obtain ⟨r, hr⟩ := buildOutFile_ok_forall hout f hf
    exact absurd hr (hne r)

/-- C7 witness: in `gC7` the selected feature `opNoProd` has no `product`
qualifier and the run aborts with a lookup error. -/
theorem c7_missing_qualifier_lookup_error_witness :
    ∃ e, pipeline gC7 = Except.error e ∧ e.isLookupError = true :=
  c7_missing_qualifier_lookup_error gC7 [opNoProd] opNoProd rfl (by decide)
    (Or.inr (Or.inr rfl))

/-- C8: the loading phase issues remote database queries if and only if the
local file `AE016877.1.gb` does not exist; when it exists, the record is
parsed from the file and no fetch is performed. -/
theorem c8_remote_queries_iff_no_local_file (gbFileExists : Bool) (numLinks : Nat) :
    (∃ eff ∈ loadEffects gbFileExists numLinks, eff.isRemoteQuery = true) ↔
      gbFileExists = false := by
  cases gbFileExists with
  | false =>
      constructor
      · intro _
        rfl
      · intro _
        refine ⟨Effect.esearch, ?_, rfl⟩
        simp [loadEffects, getGenbankEffects]
  | true =>
      constructor
      · rintro ⟨eff, hmem, hq⟩
        have heff : eff = Effect.parseFile := by
          simpa [loadEffects] using hmem
        rw [heff] at hq
        exact absurd hq (by decide)
      · intro h
        exact absurd h (by decide)

/-- C9: whenever the window is computed, every operon feature's own location
start lies in the window, so the operon's features are all selected. -/
theorem c9_operon_features_selected (g : GenomeRecord) (ops sel : List Feature)
    (s e : Int) (f : Feature)
    (hop : operonFilter (cdsFeatures g) = Except.ok ops)
    (hs : start_pos ops = Except.ok s)
    (he : end_pos ops = Except.ok e)
    (hsel : selectedOf g = Except.ok sel)
    (hf : f ∈ ops) :
    locContains (operon_range s e) f.locStart = true ∧ f ∈ sel := by
  obtain ⟨hsb, hlt⟩ := start_pos_ok_bounds hs f hf
  obtain ⟨he1, he2⟩ := end_pos_ok_bounds he f hf
  have hcont : locContains (operon_range s e) f.locStart = true := by
    simp only [locContains, operon_range, Bool.and_eq_true, decide_eq_true_eq]
    omega
  refine ⟨hcont, ?_⟩
  rw [selectedOf_ok_char hop hs he] at hsel
  cases hsel
  refine List.mem_filter.mpr ⟨operonFilter_ok_subset hop f hf, ?_⟩
  simp [inWindow, hcont]

/-- C9 witness: in `winGenome` the operon feature `opFeat` starts inside the
window and is selected. -/
theorem c9_operon_features_selected_witness :
    locContains (operon_range 100 101) opFeat.locStart = true ∧
    opFeat ∈ ([opFeat] : List Feature) :=
  c9_operon_features_selected winGenome [opFeat] [opFeat] 100 101 opFeat
    rfl rfl rfl rfl (by decide)

/-- C10: the output is a pointwise, order-preserving map over the selected
features (the i-th record is built from the i-th selected feature), and the
selected features are a sublist of the genome's feature list, preserving
their relative order. -/
theorem c10_output_order_preserving (g : GenomeRecord) (sel : List Feature)
    (recs : List OutRecord)
    (hsel : selectedOf g = Except.ok sel)
    (hout : buildOutFile sel = Except.ok recs) :
    List.Sublist sel g.features ∧
    List.Forall₂ (fun f r => buildRecord f = Except.ok r) sel recs :=
  ⟨selectedOf_ok_sublist hsel, buildOutFile_ok_forall2 hout⟩

/-- C10 witness: in `winGenome` the selection `[opFeat]` is a sublist of the
feature list and maps pointwise to `[opRec]`. -/
theorem c10_output_order_preserving_witness :
    List.Sublist [opFeat] winGenome.features ∧
    List.Forall₂ (fun f r => buildRecord f = Except.ok r) [opFeat] [opRec] :=
  c10_output_order_preserving winGenome [opFeat] [opRec] rfl rfl
